import Mathlib

/-!
# TxMonitorBot — verification of the block-window scanner and spam alerting

This file is a shallow embedding, in Lean 4, of the spam-monitoring logic of
the TxMonitorBot repository, together with theorems settling the frozen
claims about it.

The repository contains three JavaScript variants of the bot:

* `src/unnamed/part_000` — the full variant: a cursor (`lastBlockNumber`,
  `initialized`), a history catch-up scan, per-block fetch with error
  containment (`fetchBlock`), a pattern aggregator (`analyzeSpamPatterns`)
  with lowercase key normalization, a per-range alert composer
  (`sendSpamAlert`) that lists only the addresses tied at the maximum send
  count, and a pending-pool monitor (`checkPendingTxs`).
* `src/index.js` — a variant whose aggregator keys maps by the raw `from`
  string, skips `receiverCounts` for falsy `to`, and whose composer lists
  every sender with `count >= SPAM_THRESHOLD` sorted descending, truncated
  to `TOP_SENDERS_DISPLAY = 5` with an "additional addresses" note.
* `src/unnamed/part_001` — an early variant whose per-block alert condition
  is the strict comparison `txCount > 100`.

Conventions of the embedding:

* JavaScript `Map` objects (and plain objects used as string-keyed maps) are
  modelled as insertion-ordered association lists; `Map.get(k) || 0` is
  `mapGetD m k 0` and `Map.set(k, v)` is `mapSet m k v`, which updates the
  first matching entry in place or appends a fresh entry at the end.
* Fallible asynchronous calls are modelled by `Option`/`Except` values: a
  `none`/`.error` input stands for the call raising, and a function that can
  propagate an exception to its caller returns an `Option` result whose
  `none` stands for the raised exception.
* Machine integers are `Nat` (all quantities involved are non-negative;
  JavaScript's negative intermediate `latest - H` immediately passes through
  `Math.max(1, ·)`, which truncated `Nat` subtraction composed with `max 1`
  reproduces exactly).
* Message strings are modelled structurally: an alert record carries every
  datum interpolated into the JavaScript message text, and the texts that
  the claims quote (the "additional addresses" notes) are built verbatim.
-/

/-! ## Association-list model of JavaScript `Map` / object maps -/

/-- `m.get(k)`, with default `d` for a missing key (JS `map.get(k) || d`). -/
def mapGetD {κ α : Type} [BEq κ] : List (κ × α) → κ → α → α
  | [], _, d => d
  | p :: rest, k, d => if p.1 == k then p.2 else mapGetD rest k d

/-- `m.set(k, v)`: update the first entry whose key matches `k` in place
(keeping the stored key, as JS `Map.set` does), or append `(k, v)`. -/
def mapSet {κ α : Type} [BEq κ] : List (κ × α) → κ → α → List (κ × α)
  | [], k, v => [(k, v)]
  | p :: rest, k, v => if p.1 == k then (p.1, v) :: rest else p :: mapSet rest k v

/-- Sum of the values of a counting map. -/
def sumValues {κ : Type} (m : List (κ × Nat)) : Nat :=
  (m.map Prod.snd).sum

/-- JS `Set.add`: append the element unless already present. -/
def setAdd (s : List String) (x : String) : List String :=
  if s.contains x then s else s ++ [x]

/-- ASCII lowercase of a string, modelling JS `String.prototype.toLowerCase`
on hex-encoded addresses. -/
def toLowerString (s : String) : String :=
  String.mk (s.data.map Char.toLower)

/-! ## Transactions and blocks -/

/-- A transaction as consumed by the bots. Absent fields are `none`
(JS `undefined`/`null`). `value`, `gasPrice` are wei amounts. -/
structure Tx where
  txFrom : Option String
  txTo : Option String
  value : Option Nat
  gasPrice : Option Nat
  hash : Option String
  nonce : Option Nat
  deriving Repr, DecidableEq

/-- A block as returned by `getBlock(n, true)`. `transactions = none` models
a block object lacking a transaction list (`!block.transactions`); note an
empty array is truthy in JS, so `some []` is not skipped. -/
structure BlockRecord where
  number : Nat
  transactions : Option (List Tx)
  deriving Repr, DecidableEq

/-! ## part_000: `analyzeSpamPatterns` -/

/-- `x?.toLowerCase() || "unknown"` — the key normalization applied to both
`tx.from` and `tx.to` in part_000 (absent, or lowercasing to the empty —
falsy — string, yields the sentinel `"unknown"`). -/
def lowerKey (o : Option String) : String :=
  match o with
  | none => "unknown"
  | some a =>
    let l := toLowerString a
    if l == "" then "unknown" else l

/-- 0.001 ether in wei: `Number(web3.utils.fromWei(value, "ether")) < 0.001`
holds exactly on wei values below `10^15` (the representable decimal values
`k / 10^18` round to doubles on the correct side of the `0.001` double for
every `k`). -/
def dustThresholdWei : Nat := 1000000000000000

/-- The dust test of part_000, `valueInEth < 0.001`, on the wei value. -/
def isLowValue (valueWei : Nat) : Bool :=
  valueWei < dustThresholdWei

/-- The four maps produced by part_000's `analyzeSpamPatterns`. -/
structure SpamPatterns where
  addressTxCount : List (String × Nat)
  addressToRecipients : List (String × List String)
  recipientCount : List (String × Nat)
  lowValueTxCount : List (String × Nat)
  deriving Repr, DecidableEq

def emptySpamPatterns : SpamPatterns :=
  { addressTxCount := [], addressToRecipients := [], recipientCount := [], lowValueTxCount := [] }

/-- One iteration of the `transactions.forEach` body of part_000's
`analyzeSpamPatterns` (lines 36–54 of the source). -/
def analyzeStep (p : SpamPatterns) (tx : Tx) : SpamPatterns :=
  let fromA := lowerKey tx.txFrom
  let toA := lowerKey tx.txTo
  let valueWei := tx.value.getD 0
  let p1 := { p with
    addressTxCount := mapSet p.addressTxCount fromA (mapGetD p.addressTxCount fromA 0 + 1) }
  let p2 := { p1 with
    addressToRecipients :=
      mapSet p1.addressToRecipients fromA
        (setAdd (mapGetD p1.addressToRecipients fromA []) toA) }
  let p3 := { p2 with
    recipientCount := mapSet p2.recipientCount toA (mapGetD p2.recipientCount toA 0 + 1) }
  if isLowValue valueWei then
    { p3 with
      lowValueTxCount := mapSet p3.lowValueTxCount fromA (mapGetD p3.lowValueTxCount fromA 0 + 1) }
  else p3

/-- The `forEach` traversal: threads the statistics through the list and
rebuilds the traversed list, so that the returned list being the input
expresses that the traversal leaves the array and its elements intact. -/
def analyzeSpamPatternsGo : SpamPatterns → List Tx → SpamPatterns × List Tx
  | p, [] => (p, [])
  | p, tx :: rest =>
    let r := analyzeSpamPatternsGo (analyzeStep p tx) rest
    (r.1, tx :: r.2)

/-- part_000's `analyzeSpamPatterns(transactions)`. -/
def analyzeSpamPatterns (transactions : List Tx) : SpamPatterns :=
  (analyzeSpamPatternsGo emptySpamPatterns transactions).1

/-! ## part_000: `sendSpamAlert` -/

/-- A high-volume block entry as pushed by part_000's `checkBlockRange`. -/
structure HighVolumeBlock where
  number : Nat
  txCount : Nat
  transactions : List Tx
  patterns : SpamPatterns
  deriving Repr, DecidableEq

/-- The composed alert of part_000's `sendSpamAlert`, field by field the data
interpolated into the Telegram message text. -/
structure SpamAlert where
  blockCount : Nat
  totalTransactions : Nat
  perBlockLines : List (Nat × Nat)
  maxCount : Nat
  shownAddresses : List String
  remainingNote : Option String
  linkBlockNumber : Nat
  deriving Repr, DecidableEq

/-- The truncation note of part_000 (with its conditional pluralization):
`... and ${n} additional address${n > 1 ? "es" : ""} exhibiting the same pattern.` -/
def part000NoteText (remainingCount : Nat) : String :=
  "... and " ++ Nat.repr remainingCount ++ " additional address" ++
    (if 1 < remainingCount then "es" else "") ++ " exhibiting the same pattern."

/-- Grouping of part_000 lines 179–185: for each `(address, count)` of
`allAddressTxCount` in insertion order, push `address` onto the bucket of
`count` (creating the bucket at the end if absent). -/
def groupByCount (allAddressTxCount : List (String × Nat)) : List (Nat × List String) :=
  allAddressTxCount.foldl
    (fun acc p => mapSet acc p.2 (mapGetD acc p.2 [] ++ [p.1])) []

/-- Selection of part_000 lines 187–194: keep the bucket whose count strictly
exceeds the running maximum (initially `0` with no addresses). -/
def pickTop (buckets : List (Nat × List String)) : Nat × List String :=
  buckets.foldl (fun best g => if best.1 < g.1 then g else best) (0, [])

/-- part_000's `sendSpamAlert(highVolumeBlocks, allAddressTxCount)`.
`none` models the `TypeError` raised at line 212 when `highVolumeBlocks` is
empty (`highVolumeBlocks[highVolumeBlocks.length - 1]` is `undefined`, and
`.number` on it throws, so no message is composed or sent). -/
def part000SendSpamAlert (highVolumeBlocks : List HighVolumeBlock)
    (allAddressTxCount : List (String × Nat)) : Option SpamAlert :=
  match highVolumeBlocks.getLast? with
  | none => none
  | some latestHighVolumeBlock =>
    let totalTransactions := highVolumeBlocks.foldl (fun sum b => sum + b.txCount) 0
    let top := pickTop (groupByCount allAddressTxCount)
    let topSpamAddresses := top.2
    if 0 < topSpamAddresses.length then
      some
        { blockCount := highVolumeBlocks.length
          totalTransactions := totalTransactions
          perBlockLines := highVolumeBlocks.map (fun b => (b.number, b.txCount))
          maxCount := top.1
          shownAddresses := topSpamAddresses.take 5
          remainingNote :=
            if 0 < topSpamAddresses.length - 5 then
              some (part000NoteText (topSpamAddresses.length - 5))
            else none
          linkBlockNumber := latestHighVolumeBlock.number }
    else
      some
        { blockCount := highVolumeBlocks.length
          totalTransactions := totalTransactions
          perBlockLines := highVolumeBlocks.map (fun b => (b.number, b.txCount))
          maxCount := top.1
          shownAddresses := []
          remainingNote := none
          linkBlockNumber := latestHighVolumeBlock.number }

/-! ## part_000: `checkBlockRange` and `checkBlock` -/

/-- The block numbers visited by `for (let i = startBlock; i <= endBlock; i++)`. -/
def blockNums (startBlock endBlock : Nat) : List Nat :=
  List.range' startBlock (endBlock + 1 - startBlock)

/-- Loop state of part_000's `checkBlockRange`, plus the trace `fetched` of
block numbers for which `fetchBlock` has been invoked. -/
structure RangeAcc where
  highVolumeBlocks : List HighVolumeBlock
  allAddressTxCount : List (String × Nat)
  checkedBlocks : Nat
  fetched : List Nat
  deriving Repr, DecidableEq

def emptyRangeAcc : RangeAcc :=
  { highVolumeBlocks := [], allAddressTxCount := [], checkedBlocks := 0, fetched := [] }

/-- One iteration of part_000's `checkBlockRange` loop (lines 126–156).
`fetch i = none` models `fetchBlock` returning `null` (its own `catch`), and
a `transactions`-less block is likewise skipped by the `continue`. -/
def checkBlockRangeStep (fetch : Nat → Option BlockRecord) (spamThreshold : Nat)
    (acc : RangeAcc) (i : Nat) : RangeAcc :=
  let acc1 := { acc with fetched := acc.fetched ++ [i] }
  match fetch i with
  | none => acc1
  | some block =>
    match block.transactions with
    | none => acc1
    | some txs =>
      let acc2 := { acc1 with checkedBlocks := acc1.checkedBlocks + 1 }
      if spamThreshold ≤ txs.length then
        let patterns := analyzeSpamPatterns txs
        { acc2 with
          highVolumeBlocks :=
            acc2.highVolumeBlocks ++ [⟨block.number, txs.length, txs, patterns⟩]
          allAddressTxCount :=
            patterns.addressTxCount.foldl
              (fun all q => mapSet all q.1 (mapGetD all q.1 0 + q.2))
              acc2.allAddressTxCount }
      else acc2

/-- The completed loop of `checkBlockRange` over `startBlock..endBlock`. -/
def rangeFold (fetch : Nat → Option BlockRecord) (spamThreshold startBlock endBlock : Nat) :
    RangeAcc :=
  (blockNums startBlock endBlock).foldl (checkBlockRangeStep fetch spamThreshold) emptyRangeAcc

/-- Result of part_000's `checkBlockRange`: the loop state plus the alert
handed to `safeSendMessage`, if any. -/
structure RangeScanResult where
  highVolumeBlocks : List HighVolumeBlock
  allAddressTxCount : List (String × Nat)
  checkedBlocks : Nat
  fetched : List Nat
  alert : Option SpamAlert
  deriving Repr, DecidableEq

/-- part_000's `checkBlockRange(startBlock, endBlock)`. The overall `none`
would model `sendSpamAlert` raising (it is invoked only under the
`highVolumeBlocks.length > 0` guard, so this never happens — proved below). -/
def part000CheckBlockRange (fetch : Nat → Option BlockRecord)
    (startBlock endBlock spamThreshold : Nat) : Option RangeScanResult :=
  let acc := rangeFold fetch spamThreshold startBlock endBlock
  if 0 < acc.highVolumeBlocks.length then
    match part000SendSpamAlert acc.highVolumeBlocks acc.allAddressTxCount with
    | none => none
    | some a =>
      some
        { highVolumeBlocks := acc.highVolumeBlocks
          allAddressTxCount := acc.allAddressTxCount
          checkedBlocks := acc.checkedBlocks
          fetched := acc.fetched
          alert := some a }
  else
    some
      { highVolumeBlocks := acc.highVolumeBlocks
        allAddressTxCount := acc.allAddressTxCount
        checkedBlocks := acc.checkedBlocks
        fetched := acc.fetched
        alert := none }

/-- The mutable module state of part_000: `lastBlockNumber` and `initialized`. -/
structure ScannerState where
  lastBlockNumber : Nat
  initialized : Bool
  deriving Repr, DecidableEq

/-- part_000's `checkBlock()` (lines 81–119). `latestBlockNumber? = none`
models `web3.eth.getBlockNumber()` raising (swallowed by the outer `catch`,
leaving the state untouched). The second component is the range-scan result
of this tick (`none` when no range was scanned, or when the scan raised and
the exception was caught before the cursor assignment at line 115). -/
def part000CheckBlock (fetch : Nat → Option BlockRecord)
    (latestBlockNumber? : Option Nat) (checkHistoryBlocks spamThreshold : Nat)
    (s : ScannerState) : ScannerState × Option RangeScanResult :=
  match latestBlockNumber? with
  | none => (s, none)
  | some latestBlockNum =>
    if !s.initialized then
      let s' : ScannerState := { lastBlockNumber := latestBlockNum, initialized := true }
      if 0 < checkHistoryBlocks then
        let startBlock := max 1 (latestBlockNum - checkHistoryBlocks)
        (s', part000CheckBlockRange fetch startBlock latestBlockNum spamThreshold)
      else (s', none)
    else if latestBlockNum ≤ s.lastBlockNumber then
      (s, none)
    else
      match part000CheckBlockRange fetch (s.lastBlockNumber + 1) latestBlockNum spamThreshold with
      | none => (s, none)
      | some r => ({ lastBlockNumber := latestBlockNum, initialized := true }, some r)

/-! ## part_000: `checkPendingTxs` -/

/-- `txpool_status` result as read by part_000 (`poolStatus.pending || 0`). -/
structure PoolStatus where
  pending : Option Nat
  deriving Repr, DecidableEq

/-- `txpool_content().pending`: sender → (nonce → transaction), flattened in
JS `for..in` enumeration order. -/
abbrev PoolContent := List (String × List (Nat × Tx))

/-- The pending alert of part_000: the pending count plus the per-transaction
detail entries appended to the message (empty when the content capability is
absent or its fetch failed — the alert is still sent). -/
structure Part000PendingAlert where
  pendingCount : Nat
  txDetails : List Tx
  deriving Repr, DecidableEq

/-- part_000's `checkPendingTxs()` (lines 217–250). `statusCap = none` models
the capability guard `!web3.eth.txPool?.status` firing; `statusCap = some
none` models `txPool.status()` raising (swallowed by the outer `catch`);
`contentCap` likewise for `txPool.content`. The scanner state is threaded
through unchanged (the function never assigns it). -/
def part000CheckPendingTxs (statusCap : Option (Option PoolStatus))
    (contentCap : Option (Option PoolContent)) (s : ScannerState) :
    ScannerState × Option Part000PendingAlert :=
  match statusCap with
  | none => (s, none)
  | some none => (s, none)
  | some (some poolStatus) =>
    let pendingCount := poolStatus.pending.getD 0
    if 50 < pendingCount then
      match contentCap with
      | none => (s, some { pendingCount := pendingCount, txDetails := [] })
      | some none => (s, some { pendingCount := pendingCount, txDetails := [] })
      | some (some content) =>
        (s, some { pendingCount := pendingCount
                   txDetails := content.foldl (fun acc q => acc ++ q.2.map Prod.snd) [] })
    else (s, none)

/-! ## index.js: `analyzeSpamPatterns` -/

/-- JS truthiness of an optional string field (`undefined`, `null` and the
empty string are falsy). -/
def jsTruthy : Option String → Bool
  | none => false
  | some a => !(a == "")

/-- The key under which index.js counts a sender: the raw `tx.from` value,
with JS coercing an `undefined` property key to the string `"undefined"`. -/
def indexSenderKey (tx : Tx) : String :=
  tx.txFrom.getD "undefined"

/-- The four objects produced by index.js's `analyzeSpamPatterns`. -/
structure IndexPatterns where
  senderCounts : List (String × Nat)
  receiverCounts : List (String × Nat)
  gasPatterns : List (String × Nat)
  valuePatterns : List (String × Nat)
  deriving Repr, DecidableEq

def emptyIndexPatterns : IndexPatterns :=
  { senderCounts := [], receiverCounts := [], gasPatterns := [], valuePatterns := [] }

/-- One iteration of the `transactions.forEach` body of index.js's
`analyzeSpamPatterns` (lines 55–71): no case normalization anywhere;
`receiverCounts` is incremented only under `if (tx.to)`. -/
def indexAnalyzeStep (p : IndexPatterns) (tx : Tx) : IndexPatterns :=
  let p1 := { p with
    senderCounts :=
      mapSet p.senderCounts (indexSenderKey tx)
        (mapGetD p.senderCounts (indexSenderKey tx) 0 + 1) }
  let p2 :=
    if jsTruthy tx.txTo then
      let toA := tx.txTo.getD ""
      { p1 with receiverCounts := mapSet p1.receiverCounts toA (mapGetD p1.receiverCounts toA 0 + 1) }
    else p1
  let gasKey := match tx.gasPrice with | some g => Nat.repr g | none => "0"
  let p3 := { p2 with gasPatterns := mapSet p2.gasPatterns gasKey (mapGetD p2.gasPatterns gasKey 0 + 1) }
  let valueKey := match tx.value with | some v => Nat.repr v | none => "0"
  { p3 with valuePatterns := mapSet p3.valuePatterns valueKey (mapGetD p3.valuePatterns valueKey 0 + 1) }

/-- index.js's `analyzeSpamPatterns(transactions)`. -/
def indexAnalyzeSpamPatterns (transactions : List Tx) : IndexPatterns :=
  transactions.foldl indexAnalyzeStep emptyIndexPatterns

/-! ## index.js: top-sender selection and truncation (`checkBlocksSummary`) -/

/-- index.js line 24: `const SPAM_THRESHOLD = 16`. -/
def SPAM_THRESHOLD : Nat := 16

/-- index.js line 25: `const TOP_SENDERS_DISPLAY = 5`. -/
def TOP_SENDERS_DISPLAY : Nat := 5

/-- Stable insertion of one entry into a list sorted by count descending: the
inserted (originally earlier) entry goes before entries of equal count,
matching the stable JS `Array.prototype.sort` with comparator `b[1] - a[1]`. -/
def insertByCountDesc (x : String × Nat) : List (String × Nat) → List (String × Nat)
  | [] => [x]
  | y :: rest => if y.2 ≤ x.2 then x :: y :: rest else y :: insertByCountDesc x rest

/-- Stable sort by count descending. -/
def sortByCountDesc : List (String × Nat) → List (String × Nat)
  | [] => []
  | x :: rest => insertByCountDesc x (sortByCountDesc rest)

/-- index.js lines 109–111: senders with `count >= SPAM_THRESHOLD`, sorted by
count descending (`Object.entries` enumerates in insertion order). -/
def indexTopSenders (senderCounts : List (String × Nat)) : List (String × Nat) :=
  sortByCountDesc (senderCounts.filter (fun p => SPAM_THRESHOLD ≤ p.2))

/-- The truncation note of index.js (unconditionally plural):
`... and ${extraCount} additional addresses exhibiting the same pattern.` -/
def indexNoteText (extraCount : Nat) : String :=
  "... and " ++ Nat.repr extraCount ++ " additional addresses exhibiting the same pattern."

/-- index.js lines 118–130: the displayed top-sender entries and the optional
truncation note of the composed message. -/
def indexSpamSection (senderCounts : List (String × Nat)) :
    List (String × Nat) × Option String :=
  let topSenders := indexTopSenders senderCounts
  if 0 < topSenders.length then
    let displaySenders := topSenders.take TOP_SENDERS_DISPLAY
    let extraCount := topSenders.length - TOP_SENDERS_DISPLAY
    (displaySenders, if 0 < extraCount then some (indexNoteText extraCount) else none)
  else ([], none)

/-! ## index.js: `checkPendingTxs` -/

/-- `txpool_status` as read by index.js: `parseInt(x || '0x0', 16)` of the
two hex-encoded fields, modelled as the already-decoded numbers. -/
structure IndexPoolStatus where
  pending : Option Nat
  queued : Option Nat
  deriving Repr, DecidableEq

/-- The pending alert of index.js: counts, the displayed pool spam senders
(`count >= 10`, sorted descending, `slice(0, 5)`), and whether the
`Unable to fetch detailed transaction data` note was appended. -/
structure IndexPendingAlert where
  pendingCount : Nat
  queuedCount : Nat
  shownSpamSenders : List (String × Nat)
  detailUnavailable : Bool
  deriving Repr, DecidableEq

/-- index.js's `checkPendingTxs()` (lines 164–226). `statusRpc = none` models
`makeRpcCall('txpool_status')` raising (the function logs and returns, no
alert). `contentRpc`: `none` models `makeRpcCall('txpool_content')` raising
(the alert is still sent, with the detail-unavailable note); `some none`
models a result without a `pending` field; `some (some senders)` gives each
pending sender with its transaction count (`Object.keys(...).length`). -/
def indexCheckPendingTxs (statusRpc : Option IndexPoolStatus)
    (contentRpc : Option (Option (List (String × Nat)))) : Option IndexPendingAlert :=
  match statusRpc with
  | none => none
  | some poolStatus =>
    let pendingCount := poolStatus.pending.getD 0
    let queuedCount := poolStatus.queued.getD 0
    if 50 < pendingCount then
      match contentRpc with
      | none =>
        some { pendingCount := pendingCount, queuedCount := queuedCount
               shownSpamSenders := [], detailUnavailable := true }
      | some none =>
        some { pendingCount := pendingCount, queuedCount := queuedCount
               shownSpamSenders := [], detailUnavailable := false }
      | some (some pendingSenders) =>
        let spamSenders := sortByCountDesc (pendingSenders.filter (fun p => 10 ≤ p.2))
        some { pendingCount := pendingCount, queuedCount := queuedCount
               shownSpamSenders := spamSenders.take 5, detailUnavailable := false }
    else none

/-! ## part_001: `checkBlock` -/

/-- The loop of part_001's `checkBlock` (lines 24–50). `getBlock i = .error ()`
models `web3.eth.getBlock` raising: part_001 has no per-block error handling,
so the exception aborts the whole loop (first component `false`) and reaches
the outer `catch`, skipping the cursor assignment. Alerts — abstracted to the
`(block.number, txCount)` data of the message — are emitted for blocks with
`txCount > 100` (strictly). A `null` block or one without a transaction list
is skipped by the `continue`. -/
def part001Loop (getBlock : Nat → Except Unit (Option BlockRecord)) :
    List Nat → List (Nat × Nat) → Bool × List (Nat × Nat)
  | [], alerts => (true, alerts)
  | i :: rest, alerts =>
    match getBlock i with
    | .error _ => (false, alerts)
    | .ok none => part001Loop getBlock rest alerts
    | .ok (some block) =>
      match block.transactions with
      | none => part001Loop getBlock rest alerts
      | some txs =>
        if 100 < txs.length then
          part001Loop getBlock rest (alerts ++ [(block.number, txs.length)])
        else
          part001Loop getBlock rest alerts

/-- part_001's `checkBlock()`: returns the new `lastBlockNumber` and the
alerts sent during the tick. The cursor advances to `latest` only if the
whole loop completed without an exception (the assignment at line 52 comes
after the loop, inside the `try`). -/
def part001CheckBlock (getBlock : Nat → Except Unit (Option BlockRecord))
    (latestBlockNumber? : Except Unit Nat) (lastBlockNumber : Nat) :
    Nat × List (Nat × Nat) :=
  match latestBlockNumber? with
  | .error _ => (lastBlockNumber, [])
  | .ok latest =>
    if latest ≤ lastBlockNumber then (lastBlockNumber, [])
    else
      match part001Loop getBlock (blockNums (lastBlockNumber + 1) latest) [] with
      | (true, alerts) => (latest, alerts)
      | (false, alerts) => (lastBlockNumber, alerts)

/-! ## Helper lemmas: counting maps -/

theorem sumValues_nil {κ : Type} : sumValues ([] : List (κ × Nat)) = 0 := rfl

theorem sumValues_cons {κ : Type} (p : κ × Nat) (m : List (κ × Nat)) :
    sumValues (p :: m) = p.2 + sumValues m := by
  simp [sumValues]

/-- Incrementing one bucket by `v` raises the total by `v`. -/
theorem sumValues_mapSet_add {κ : Type} [BEq κ] (m : List (κ × Nat)) (k : κ) (v : Nat) :
    sumValues (mapSet m k (mapGetD m k 0 + v)) = sumValues m + v := by
  induction m with
  | nil => simp [mapSet, mapGetD, sumValues]
  | cons p rest ih =>
    by_cases h : (p.1 == k) = true
    · simp [mapSet, mapGetD, h, sumValues_cons]
      omega
    · simp [mapSet, mapGetD, h, sumValues_cons, ih]
      omega

/-- Merging a counting map into an accumulator bucket by bucket adds the totals. -/
theorem sumValues_foldl_mergeAdd {κ : Type} [BEq κ] (m acc : List (κ × Nat)) :
    sumValues (m.foldl (fun all q => mapSet all q.1 (mapGetD all q.1 0 + q.2)) acc)
      = sumValues acc + sumValues m := by
  induction m generalizing acc with
  | nil => simp [sumValues]
  | cons q rest ih =>
    simp only [List.foldl_cons]
    rw [ih, sumValues_mapSet_add, sumValues_cons]
    omega

/-- Reading back the bucket just written. -/
theorem mapGetD_mapSet_self {κ α : Type} [BEq κ] [ReflBEq κ]
    (m : List (κ × α)) (k : κ) (v d : α) :
    mapGetD (mapSet m k v) k d = v := by
  induction m with
  | nil => simp [mapSet, mapGetD]
  | cons p rest ih =>
    by_cases h : (p.1 == k) = true
    · simp [mapSet, mapGetD, h]
    · simp [mapSet, mapGetD, h, ih]

/-- Writing one bucket leaves the others unchanged. -/
theorem mapGetD_mapSet_ne {κ α : Type} [BEq κ] [LawfulBEq κ] (m : List (κ × α)) (k k' : κ)
    (v d : α) (h : k ≠ k') :
    mapGetD (mapSet m k v) k' d = mapGetD m k' d := by
  induction m with
  | nil => simp [mapSet, mapGetD, h]
  | cons p rest ih =>
    by_cases hp : (p.1 == k) = true
    · have hp' : p.1 = k := by simpa using hp
      subst hp'
      simp [mapSet, mapGetD, h, hp]
    · simp [mapSet, mapGetD, hp, ih]

/-! ## Helper lemmas: the part_000 aggregator -/

theorem analyzeStep_addressTxCount (p : SpamPatterns) (tx : Tx) :
    (analyzeStep p tx).addressTxCount =
      mapSet p.addressTxCount (lowerKey tx.txFrom)
        (mapGetD p.addressTxCount (lowerKey tx.txFrom) 0 + 1) := by
  cases h : isLowValue (tx.value.getD 0) <;> simp [analyzeStep, h]

theorem analyzeStep_recipientCount (p : SpamPatterns) (tx : Tx) :
    (analyzeStep p tx).recipientCount =
      mapSet p.recipientCount (lowerKey tx.txTo)
        (mapGetD p.recipientCount (lowerKey tx.txTo) 0 + 1) := by
  cases h : isLowValue (tx.value.getD 0) <;> simp [analyzeStep, h]

theorem analyzeSpamPatternsGo_fst (p : SpamPatterns) (txs : List Tx) :
    (analyzeSpamPatternsGo p txs).1 = txs.foldl analyzeStep p := by
  induction txs generalizing p with
  | nil => rfl
  | cons tx rest ih => simp [analyzeSpamPatternsGo, ih]

theorem analyzeSpamPatternsGo_snd (p : SpamPatterns) (txs : List Tx) :
    (analyzeSpamPatternsGo p txs).2 = txs := by
  induction txs generalizing p with
  | nil => rfl
  | cons tx rest ih => simp [analyzeSpamPatternsGo, ih]

theorem foldl_analyzeStep_addressTxCount_sum (txs : List Tx) (p : SpamPatterns) :
    sumValues ((txs.foldl analyzeStep p).addressTxCount)
      = sumValues p.addressTxCount + txs.length := by
  induction txs generalizing p with
  | nil => simp
  | cons tx rest ih =>
    simp only [List.foldl_cons, List.length_cons]
    rw [ih, analyzeStep_addressTxCount, sumValues_mapSet_add]
    omega

/-- Every transaction is attributed to exactly one sender bucket. -/
theorem analyze_addressTxCount_sum (txs : List Tx) :
    sumValues (analyzeSpamPatterns txs).addressTxCount = txs.length := by
  unfold analyzeSpamPatterns
  rw [analyzeSpamPatternsGo_fst, foldl_analyzeStep_addressTxCount_sum]
  simp [emptySpamPatterns, sumValues]

/-- Every transaction also increments exactly one recipient bucket (absent
`to` goes to the `"unknown"` bucket, not nowhere). -/
theorem analyze_recipientCount_sum (txs : List Tx) :
    sumValues (analyzeSpamPatterns txs).recipientCount = txs.length := by
  unfold analyzeSpamPatterns
  rw [analyzeSpamPatternsGo_fst]
  have : ∀ (l : List Tx) (p : SpamPatterns),
      sumValues ((l.foldl analyzeStep p).recipientCount)
        = sumValues p.recipientCount + l.length := by
    intro l
    induction l with
    | nil => simp
    | cons tx rest ih =>
      intro p
      simp only [List.foldl_cons, List.length_cons]
      rw [ih, analyzeStep_recipientCount, sumValues_mapSet_add]
      omega
  rw [this]
  simp [emptySpamPatterns, sumValues]

/-! ## Helper lemmas: the index.js aggregator -/

theorem indexAnalyzeStep_receiverCounts (p : IndexPatterns) (tx : Tx) :
    (indexAnalyzeStep p tx).receiverCounts =
      if jsTruthy tx.txTo then
        mapSet p.receiverCounts (tx.txTo.getD "")
          (mapGetD p.receiverCounts (tx.txTo.getD "") 0 + 1)
      else p.receiverCounts := by
  cases h : jsTruthy tx.txTo <;> simp [indexAnalyzeStep, h]

theorem indexAnalyzeStep_senderCounts (p : IndexPatterns) (tx : Tx) :
    (indexAnalyzeStep p tx).senderCounts =
      mapSet p.senderCounts (indexSenderKey tx)
        (mapGetD p.senderCounts (indexSenderKey tx) 0 + 1) := by
  cases h : jsTruthy tx.txTo <;> simp [indexAnalyzeStep, h]

theorem foldl_indexAnalyzeStep_receiverCounts_sum (txs : List Tx) (p : IndexPatterns) :
    sumValues ((txs.foldl indexAnalyzeStep p).receiverCounts)
      = sumValues p.receiverCounts + txs.countP (fun tx => jsTruthy tx.txTo) := by
  induction txs generalizing p with
  | nil => simp
  | cons tx rest ih =>
    simp only [List.foldl_cons, List.countP_cons]
    rw [ih, indexAnalyzeStep_receiverCounts]
    by_cases h : jsTruthy tx.txTo = true
    · simp only [h, if_true]
      rw [sumValues_mapSet_add]
      omega
    · simp only [h]
      simp at h
      simp [h]

/-! ## Helper lemmas: the part_000 range scan -/

theorem checkBlockRangeStep_fetched (fetch : Nat → Option BlockRecord) (th : Nat)
    (acc : RangeAcc) (i : Nat) :
    (checkBlockRangeStep fetch th acc i).fetched = acc.fetched ++ [i] := by
  cases hf : fetch i with
  | none => simp [checkBlockRangeStep, hf]
  | some block =>
    cases ht : block.transactions with
    | none => simp [checkBlockRangeStep, hf, ht]
    | some txs =>
      simp only [checkBlockRangeStep, hf, ht]
      split <;> rfl

theorem foldl_checkBlockRangeStep_fetched (fetch : Nat → Option BlockRecord) (th : Nat)
    (l : List Nat) (acc : RangeAcc) :
    ((l.foldl (checkBlockRangeStep fetch th) acc).fetched) = acc.fetched ++ l := by
  induction l generalizing acc with
  | nil => simp
  | cons i rest ih =>
    simp only [List.foldl_cons]
    rw [ih, checkBlockRangeStep_fetched]
    simp

/-- The loop attempts a fetch for exactly the block numbers of the range, in
order, whatever the fetch outcomes are. -/
theorem rangeFold_fetched (fetch : Nat → Option BlockRecord) (th s e : Nat) :
    (rangeFold fetch th s e).fetched = blockNums s e := by
  unfold rangeFold
  rw [foldl_checkBlockRangeStep_fetched]
  simp [emptyRangeAcc]

theorem mem_blockNums {b s e : Nat} : b ∈ blockNums s e ↔ s ≤ b ∧ b ≤ e := by
  unfold blockNums
  rw [List.mem_range'_1]
  omega

/-- Step invariant: the merged per-address counts total exactly the
transaction counts of the high-volume blocks collected so far. -/
theorem checkBlockRangeStep_sum (fetch : Nat → Option BlockRecord) (th : Nat)
    (acc : RangeAcc) (i : Nat)
    (h : sumValues acc.allAddressTxCount
          = acc.highVolumeBlocks.foldl (fun sum b => sum + b.txCount) 0) :
    sumValues (checkBlockRangeStep fetch th acc i).allAddressTxCount
      = (checkBlockRangeStep fetch th acc i).highVolumeBlocks.foldl
          (fun sum b => sum + b.txCount) 0 := by
  cases hf : fetch i with
  | none => simpa [checkBlockRangeStep, hf] using h
  | some block =>
    cases ht : block.transactions with
    | none => simpa [checkBlockRangeStep, hf, ht] using h
    | some txs =>
      simp only [checkBlockRangeStep, hf, ht]
      split
      · dsimp only
        rw [sumValues_foldl_mergeAdd, analyze_addressTxCount_sum, List.foldl_append, h]
        rfl
      · exact h

theorem rangeFold_sum (fetch : Nat → Option BlockRecord) (th s e : Nat) :
    sumValues (rangeFold fetch th s e).allAddressTxCount
      = (rangeFold fetch th s e).highVolumeBlocks.foldl (fun sum b => sum + b.txCount) 0 := by
  unfold rangeFold
  have : ∀ (l : List Nat) (acc : RangeAcc),
      sumValues acc.allAddressTxCount
        = acc.highVolumeBlocks.foldl (fun sum b => sum + b.txCount) 0 →
      sumValues ((l.foldl (checkBlockRangeStep fetch th) acc).allAddressTxCount)
        = ((l.foldl (checkBlockRangeStep fetch th) acc).highVolumeBlocks).foldl
            (fun sum b => sum + b.txCount) 0 := by
    intro l
    induction l with
    | nil => intro acc h; exact h
    | cons i rest ih =>
      intro acc h
      exact ih _ (checkBlockRangeStep_sum fetch th acc i h)
  exact this _ _ (by simp [emptyRangeAcc, sumValues])

/-! ## Helper lemmas: the part_000 composer -/

/-- The composer completes normally whenever at least one high-volume block
was collected (`getLast?` of a nonempty list is `some`). -/
theorem part000SendSpamAlert_isSome_of_ne (hvbs : List HighVolumeBlock)
    (m : List (String × Nat)) (h : hvbs ≠ []) :
    (part000SendSpamAlert hvbs m).isSome := by
  have hl : hvbs.getLast?.isSome := List.getLast?_isSome.mpr h
  obtain ⟨b, hb⟩ := Option.isSome_iff_exists.mp hl
  unfold part000SendSpamAlert
  rw [hb]
  dsimp only
  split <;> simp

/-- The `totalTransactions` figure of any composed alert is the `reduce` of
the collected blocks' transaction counts. -/
theorem part000SendSpamAlert_totalTransactions (hvbs : List HighVolumeBlock)
    (m : List (String × Nat)) (a : SpamAlert)
    (h : part000SendSpamAlert hvbs m = some a) :
    a.totalTransactions = hvbs.foldl (fun sum b => sum + b.txCount) 0 := by
  unfold part000SendSpamAlert at h
  cases hl : hvbs.getLast? with
  | none => rw [hl] at h; exact absurd h (by simp)
  | some b =>
    rw [hl] at h
    dsimp only at h
    split at h <;> (cases h; rfl)

/-- `checkBlockRange` never propagates an exception: its composer is invoked
only under the `highVolumeBlocks.length > 0` guard. The result carries the
final loop state unchanged. -/
theorem part000CheckBlockRange_spec (fetch : Nat → Option BlockRecord) (s e th : Nat) :
    ∃ r, part000CheckBlockRange fetch s e th = some r ∧
      r.highVolumeBlocks = (rangeFold fetch th s e).highVolumeBlocks ∧
      r.allAddressTxCount = (rangeFold fetch th s e).allAddressTxCount ∧
      r.fetched = (rangeFold fetch th s e).fetched ∧
      (∀ a, r.alert = some a →
        part000SendSpamAlert r.highVolumeBlocks r.allAddressTxCount = some a) := by
  unfold part000CheckBlockRange
  by_cases h0 : 0 < (rangeFold fetch th s e).highVolumeBlocks.length
  · have hne : (rangeFold fetch th s e).highVolumeBlocks ≠ [] := by
      intro hcon
      rw [hcon] at h0
      simp at h0
    obtain ⟨a, ha⟩ := Option.isSome_iff_exists.mp
      (part000SendSpamAlert_isSome_of_ne _ (rangeFold fetch th s e).allAddressTxCount hne)
    rw [if_pos h0, ha]
    refine ⟨_, rfl, rfl, rfl, rfl, ?_⟩
    intro a' ha'
    cases ha'
    exact ha
  · rw [if_neg h0]
    refine ⟨_, rfl, rfl, rfl, rfl, ?_⟩
    intro a' ha'
    exact absurd ha' (by simp)

/-! ## Helper lemmas: grouping and maximum-bucket selection -/

theorem mapGetD_of_not_mem {κ α : Type} [BEq κ] (m : List (κ × α)) (k : κ) (d : α)
    (h : ∀ p ∈ m, (p.1 == k) = false) : mapGetD m k d = d := by
  induction m with
  | nil => rfl
  | cons p rest ih =>
    have hp := h p (by simp)
    have ihr := ih (fun q hq => h q (by simp [hq]))
    simp [mapGetD, hp, ihr]

theorem mapSet_of_not_mem {κ α : Type} [BEq κ] (m : List (κ × α)) (k : κ) (v : α)
    (h : ∀ p ∈ m, (p.1 == k) = false) : mapSet m k v = m ++ [(k, v)] := by
  induction m with
  | nil => rfl
  | cons p rest ih =>
    have hp := h p (by simp)
    have ihr := ih (fun q hq => h q (by simp [hq]))
    simp [mapSet, hp, ihr]

/-- With pairwise-distinct counts, the count-grouping of part_000 lines
179–185 produces one singleton bucket per entry, in order. -/
theorem groupByCount_of_distinct (m : List (String × Nat))
    (hm : (m.map Prod.snd).Pairwise Ne) :
    groupByCount m = m.map (fun p => (p.2, [p.1])) := by
  unfold groupByCount
  suffices h : ∀ (acc : List (Nat × List String)),
      (m.map Prod.snd).Pairwise Ne →
      (∀ p ∈ m, ∀ g ∈ acc, (g.1 == p.2) = false) →
      m.foldl (fun acc p => mapSet acc p.2 (mapGetD acc p.2 [] ++ [p.1])) acc
        = acc ++ m.map (fun p => (p.2, [p.1])) by
    simpa using h [] hm (by simp)
  clear hm
  induction m with
  | nil => simp
  | cons p rest ih =>
    intro acc hm hdisj
    have hdp : ∀ g ∈ acc, (g.1 == p.2) = false := fun g hg => hdisj p (by simp) g hg
    have hrest : (rest.map Prod.snd).Pairwise Ne ∧ ∀ q ∈ rest, p.2 ≠ q.2 := by
      rw [List.map_cons, List.pairwise_cons] at hm
      exact ⟨hm.2, fun q hq => hm.1 q.2 (List.mem_map_of_mem Prod.snd hq)⟩
    simp only [List.foldl_cons]
    rw [mapGetD_of_not_mem _ _ _ hdp, mapSet_of_not_mem _ _ _ hdp, List.nil_append]
    rw [ih (acc ++ [(p.2, [p.1])]) hrest.1 ?_]
    · simp
    · intro q hq g hg
      rcases List.mem_append.mp hg with hga | hgp
      · exact hdisj q (by simp [hq]) g hga
      · have : g = (p.2, [p.1]) := by simpa using hgp
        subst this
        simpa using hrest.2 q hq
/-- The maximum-count selection of part_000 lines 187–194 yields either the
initial `(0, [])` (no bucket examined had a positive count) or one of the
buckets. -/
theorem pickTop_cases (buckets : List (Nat × List String)) :
    pickTop buckets = (0, []) ∨ pickTop buckets ∈ buckets := by
  unfold pickTop
  suffices h : ∀ (best : Nat × List String),
      buckets.foldl (fun best g => if best.1 < g.1 then g else best) best = best ∨
      buckets.foldl (fun best g => if best.1 < g.1 then g else best) best ∈ buckets from
    h (0, [])
  induction buckets with
  | nil => intro best; left; rfl
  | cons g rest ih =>
    intro best
    simp only [List.foldl_cons]
    rcases ih (if best.1 < g.1 then g else best) with h | h
    · rw [h]
      split
      · right; simp
      · left; rfl
    · right; simp [h]

/-! ## Claim C1 -/

/-- **C1** — Cursor correctness under failure: in part_000, for every tick
after initialization in which the observed latest block number exceeds the
cursor, the scan attempts a fetch of every block in the range
`(lastProcessedBlock, latest]` and then sets `lastBlockNumber = latest`,
for every fetch-failure pattern (a failed block is skipped without aborting
the loop); and no tick taken from an initialized state ever decreases the
cursor. -/
theorem C1_cursor_correct_under_failure
    (fetch : Nat → Option BlockRecord) (latest : Nat) (s : ScannerState)
    (H th : Nat) (hInit : s.initialized = true) (hNew : s.lastBlockNumber < latest) :
    ((part000CheckBlock fetch (some latest) H th s).1.lastBlockNumber = latest ∧
      ∃ r, (part000CheckBlock fetch (some latest) H th s).2 = some r ∧
        r.fetched = blockNums (s.lastBlockNumber + 1) latest ∧
        ∀ b, s.lastBlockNumber < b → b ≤ latest → b ∈ r.fetched) ∧
    (∀ (latest? : Option Nat) (s' : ScannerState), s'.initialized = true →
      s'.lastBlockNumber ≤ (part000CheckBlock fetch latest? H th s').1.lastBlockNumber) := by
  constructor
  · obtain ⟨r, hr, _, _, hf, _⟩ :=
      part000CheckBlockRange_spec fetch (s.lastBlockNumber + 1) latest th
    have hnotle : ¬ latest ≤ s.lastBlockNumber := by omega
    have hfetched : r.fetched = blockNums (s.lastBlockNumber + 1) latest := by
      rw [hf, rangeFold_fetched]
    constructor
    · simp [part000CheckBlock, hInit, hnotle, hr]
    · refine ⟨r, ?_, hfetched, ?_⟩
      · simp [part000CheckBlock, hInit, hnotle, hr]
      · intro b hb1 hb2
        rw [hfetched]
        exact mem_blockNums.mpr (by omega)
  · intro latest? s' hInit'
    cases latest? with
    | none => simp [part000CheckBlock]
    | some l =>
      by_cases hle : l ≤ s'.lastBlockNumber
      · simp [part000CheckBlock, hInit', hle]
      · obtain ⟨r, hr, _⟩ := part000CheckBlockRange_spec fetch (s'.lastBlockNumber + 1) l th
        simp [part000CheckBlock, hInit', hle, hr]
        omega

/-- A transaction used by the concrete witnesses. -/
def wTxXY : Tx :=
  { txFrom := some "0xSender", txTo := some "0xRecv", value := some 0,
    gasPrice := none, hash := none, nonce := none }

/-- Fetch environment of the partial-failure scenario: block 103 fails,
every other block carries one transaction. -/
def wFetchFail : Nat → Option BlockRecord := fun n =>
  if n = 103 then none else some { number := n, transactions := some [wTxXY] }

theorem C1_witness :
    (((part000CheckBlock wFetchFail (some 105) 200 50 ⟨100, true⟩).1.lastBlockNumber = 105 ∧
      ∃ r, (part000CheckBlock wFetchFail (some 105) 200 50 ⟨100, true⟩).2 = some r ∧
        r.fetched = blockNums (100 + 1) 105 ∧
        ∀ b, 100 < b → b ≤ 105 → b ∈ r.fetched) ∧
    (∀ (latest? : Option Nat) (s' : ScannerState), s'.initialized = true →
      s'.lastBlockNumber ≤ (part000CheckBlock wFetchFail latest? 200 50 s').1.lastBlockNumber)) :=
  C1_cursor_correct_under_failure wFetchFail 105 ⟨100, true⟩ 200 50 rfl (by decide)

/-! ## Claim C2 -/

/-- **C2** — First-invocation catch-up: on the first scan invocation (cursor
uninitialized) part_000 sets the cursor to the observed latest block number
and marks it initialized; with a positive history depth `H` it performs one
catch-up scan attempting exactly the blocks `max 1 (latest − H) .. latest`
(without touching the cursor again); and a following tick observing the same
head is a complete no-op (no block is re-scanned). -/
theorem C2_first_invocation_catchup
    (fetch : Nat → Option BlockRecord) (latest H th c0 : Nat) (hH : 0 < H) :
    (part000CheckBlock fetch (some latest) H th ⟨c0, false⟩).1 =
        ⟨latest, true⟩ ∧
    (∃ r, (part000CheckBlock fetch (some latest) H th ⟨c0, false⟩).2 = some r ∧
      r.fetched = blockNums (max 1 (latest - H)) latest) ∧
    part000CheckBlock fetch (some latest) H th ⟨latest, true⟩ = (⟨latest, true⟩, none) := by
  obtain ⟨r, hr, _, _, hf, _⟩ :=
    part000CheckBlockRange_spec fetch (max 1 (latest - H)) latest th
  refine ⟨?_, ⟨r, ?_, ?_⟩, ?_⟩
  · simp [part000CheckBlock, hH]
  · simp [part000CheckBlock, hH, hr]
  · rw [hf, rangeFold_fetched]
  · simp [part000CheckBlock]

theorem C2_witness :
    ((part000CheckBlock wFetchFail (some 1000) 200 50 ⟨0, false⟩).1 =
        ⟨1000, true⟩ ∧
    (∃ r, (part000CheckBlock wFetchFail (some 1000) 200 50 ⟨0, false⟩).2 = some r ∧
      r.fetched = blockNums (max 1 (1000 - 200)) 1000) ∧
    part000CheckBlock wFetchFail (some 1000) 200 50 ⟨1000, true⟩ = (⟨1000, true⟩, none)) :=
  C2_first_invocation_catchup wFetchFail 1000 200 50 0 (by decide)

/-! ## Claim C3 -/

/-- A block carrying exactly 100 transactions — part_001's own threshold
value. -/
def wBlock100Tx : BlockRecord :=
  { number := 200, transactions := some (List.replicate 100 wTxXY) }

def wGetBlock100 : Nat → Except Unit (Option BlockRecord) := fun _ =>
  Except.ok (some wBlock100Tx)

/-- **C3 counterexample** — the claim says a fetched block with exactly
threshold transactions is always classified high-volume. In part_001 the
condition is the strict `txCount > 100`: scanning the single new block 200,
which is fetched successfully and carries exactly 100 transactions, the tick
advances the cursor but raises no alert at all. -/
theorem C3_counterexample :
    part001CheckBlock wGetBlock100 (Except.ok 200) 199 = (200, []) := by
  decide

/-- **C3 (amended)** — High-volume boundary, per variant: in part_000's
`checkBlockRange`, a fetched block with a transaction list is appended to
`highVolumeBlocks` exactly when `spamThreshold ≤ txCount` (so `threshold − 1`
never qualifies and `threshold` always does); in part_001, an alert is
raised for a block only when `txCount > 100` strictly, so a block with
exactly 100 transactions is never flagged there. -/
theorem C3_high_volume_boundary_amended :
    (∀ (fetch : Nat → Option BlockRecord) (th : Nat) (acc : RangeAcc) (i : Nat)
        (blk : BlockRecord) (txs : List Tx),
        fetch i = some blk → blk.transactions = some txs →
        ((th ≤ txs.length →
            (checkBlockRangeStep fetch th acc i).highVolumeBlocks =
              acc.highVolumeBlocks ++
                [⟨blk.number, txs.length, txs, analyzeSpamPatterns txs⟩]) ∧
          (txs.length < th →
            (checkBlockRangeStep fetch th acc i).highVolumeBlocks =
              acc.highVolumeBlocks))) ∧
    (∀ (getBlock : Nat → Except Unit (Option BlockRecord)) (nums : List Nat)
        (p : Nat × Nat), p ∈ (part001Loop getBlock nums []).2 → 100 < p.2) := by
  constructor
  · intro fetch th acc i blk txs hfi hts
    constructor
    · intro hth
      simp only [checkBlockRangeStep, hfi, hts]
      rw [if_pos hth]
    · intro hlt
      simp only [checkBlockRangeStep, hfi, hts]
      rw [if_neg (by omega)]
  · intro getBlock nums p hp
    suffices h : ∀ (l : List Nat) (acc : List (Nat × Nat)) (q : Nat × Nat),
        q ∈ (part001Loop getBlock l acc).2 → q ∈ acc ∨ 100 < q.2 by
      rcases h nums [] p hp with hin | hgt
      · simp at hin
      · exact hgt
    intro l
    induction l with
    | nil => intro acc q hq; exact Or.inl hq
    | cons i rest ih =>
      intro acc q hq
      cases hg : getBlock i with
      | error e =>
        rw [part001Loop, hg] at hq
        exact Or.inl hq
      | ok ob =>
        cases ob with
        | none =>
          rw [part001Loop, hg] at hq
          exact ih acc q hq
        | some blk =>
          cases ht : blk.transactions with
          | none =>
            simp only [part001Loop, hg, ht] at hq
            exact ih acc q hq
          | some txs =>
            simp only [part001Loop, hg, ht] at hq
            by_cases h100 : 100 < txs.length
            · rw [if_pos h100] at hq
              rcases ih _ q hq with hin | hgt
              · rcases List.mem_append.mp hin with hin' | hin''
                · exact Or.inl hin'
                · right
                  have : q = (blk.number, txs.length) := by simpa using hin''
                  rw [this]
                  exact h100
              · exact Or.inr hgt
            · rw [if_neg h100] at hq
              exact ih acc q hq

def wFetch3 : Nat → Option BlockRecord := fun _ =>
  some { number := 5, transactions := some (List.replicate 3 wTxXY) }

def wGetBlock101 : Nat → Except Unit (Option BlockRecord) := fun _ =>
  Except.ok (some { number := 9, transactions := some (List.replicate 101 wTxXY) })

theorem C3_witness :
    ((checkBlockRangeStep wFetch3 3 emptyRangeAcc 5).highVolumeBlocks =
        emptyRangeAcc.highVolumeBlocks ++
          [⟨5, (List.replicate 3 wTxXY).length, List.replicate 3 wTxXY,
            analyzeSpamPatterns (List.replicate 3 wTxXY)⟩]) ∧
    ((checkBlockRangeStep wFetch3 4 emptyRangeAcc 5).highVolumeBlocks =
        emptyRangeAcc.highVolumeBlocks) ∧
    100 < ((9 : Nat), (101 : Nat)).2 :=
  ⟨(C3_high_volume_boundary_amended.1 wFetch3 3 emptyRangeAcc 5 _ _ rfl rfl).1 (by decide),
   (C3_high_volume_boundary_amended.1 wFetch3 4 emptyRangeAcc 5 _ _ rfl rfl).2 (by decide),
   C3_high_volume_boundary_amended.2 wGetBlock101 [9] (9, 101) (by decide)⟩

/-! ## Claim C4 -/

/-- Seven addresses, each with a large send count, all counts pairwise
distinct — the scenario of the claim. -/
def wStats7 : List (String × Nat) :=
  [("0xa1", 10), ("0xa2", 11), ("0xa3", 12), ("0xa4", 13), ("0xa5", 14),
   ("0xa6", 15), ("0xa7", 16)]

def wHvb : HighVolumeBlock :=
  { number := 500, txCount := 91, transactions := [], patterns := emptySpamPatterns }

/-- **C4 counterexample** — the claim says that with 7 qualifying addresses
of pairwise distinct counts the composed alert lists exactly 5 addresses and
notes "and 2 additional addresses". part_000's `sendSpamAlert` keeps only the
addresses tied at the maximum count: on these 7 addresses it lists exactly
one address (`"0xa7"`, the maximum) and emits no truncation note. -/
theorem C4_counterexample :
    (part000SendSpamAlert [wHvb] wStats7).map
      (fun a => (a.shownAddresses, a.remainingNote)) = some (["0xa7"], none) := by
  decide

/-- **C4 (amended)** — Top-sender truncation, per variant: in index.js, when
more than `TOP_SENDERS_DISPLAY = 5` addresses qualify (`count ≥ 16`, sorted
descending), the message lists exactly 5 and carries the note
`... and N additional addresses exhibiting the same pattern.` with `N` the
number of remaining qualifying addresses. In part_000, only the addresses
tied at the single maximum count are listed, so with pairwise distinct
counts at most one address is shown and no truncation note appears (the
note there requires more than 5 addresses tied at the maximum). -/
theorem C4_top_sender_truncation_amended :
    (∀ senderCounts : List (String × Nat),
        TOP_SENDERS_DISPLAY < (indexTopSenders senderCounts).length →
        (indexSpamSection senderCounts).1.length = TOP_SENDERS_DISPLAY ∧
        (indexSpamSection senderCounts).2 =
          some (indexNoteText
            ((indexTopSenders senderCounts).length - TOP_SENDERS_DISPLAY))) ∧
    (∀ (m : List (String × Nat)) (hvbs : List HighVolumeBlock) (a : SpamAlert),
        (m.map Prod.snd).Pairwise Ne → part000SendSpamAlert hvbs m = some a →
        a.shownAddresses.length ≤ 1 ∧ a.remainingNote = none) := by
  constructor
  · intro sc h
    have h0 : 0 < (indexTopSenders sc).length := by
      have : (TOP_SENDERS_DISPLAY : Nat) = 5 := rfl
      omega
    simp only [indexSpamSection]
    rw [if_pos h0]
    constructor
    · simp only [List.length_take]
      omega
    · rw [if_pos (by omega)]
  · intro m hvbs a hm h
    have hg := groupByCount_of_distinct m hm
    have htoplen : (pickTop (groupByCount m)).2.length ≤ 1 := by
      rcases pickTop_cases (groupByCount m) with h0 | hmem
      · rw [h0]
        simp
      · rw [hg] at hmem ⊢
        obtain ⟨p, _, hpe⟩ := List.mem_map.mp hmem
        rw [← hpe]
        simp
    unfold part000SendSpamAlert at h
    cases hl : hvbs.getLast? with
    | none =>
      rw [hl] at h
      exact absurd h (by simp)
    | some b =>
      rw [hl] at h
      dsimp only at h
      split at h
      · simp only [Option.some.injEq] at h
        subst h
        constructor
        · dsimp only
          simp only [List.length_take]
          omega
        · dsimp only
          rw [if_neg (by omega)]
      · simp only [Option.some.injEq] at h
        subst h
        exact ⟨by simp, rfl⟩

def wSenderCounts7 : List (String × Nat) :=
  [("s1", 16), ("s2", 17), ("s3", 18), ("s4", 19), ("s5", 20), ("s6", 21), ("s7", 22)]

def wAlert7 : SpamAlert :=
  (part000SendSpamAlert [wHvb] wStats7).getD
    { blockCount := 0, totalTransactions := 0, perBlockLines := [], maxCount := 0,
      shownAddresses := [], remainingNote := none, linkBlockNumber := 0 }

theorem C4_witness :
    ((indexSpamSection wSenderCounts7).1.length = TOP_SENDERS_DISPLAY ∧
      (indexSpamSection wSenderCounts7).2 =
        some (indexNoteText
          ((indexTopSenders wSenderCounts7).length - TOP_SENDERS_DISPLAY))) ∧
    (wAlert7.shownAddresses.length ≤ 1 ∧ wAlert7.remainingNote = none) ∧
    indexNoteText ((indexTopSenders wSenderCounts7).length - TOP_SENDERS_DISPLAY) =
      "... and 2 additional addresses exhibiting the same pattern." :=
  ⟨C4_top_sender_truncation_amended.1 wSenderCounts7 (by decide),
   C4_top_sender_truncation_amended.2 wStats7 [wHvb] wAlert7 (by decide) (by decide),
   by decide⟩

/-! ## Claim C5 -/

/-- **C5 counterexample** — the claim says the composer, applied to an empty
list of high-volume blocks and empty address statistics, returns without
raising. In part_000, `sendSpamAlert([], new Map())` dereferences
`highVolumeBlocks[-1].number` and raises a `TypeError` (modelled by `none`):
no alert is composed. -/
theorem C5_counterexample : part000SendSpamAlert [] [] = none := rfl

/-- **C5 (amended)** — the composer completes without raising exactly when
the high-volume block list is nonempty (whatever the address statistics); on
an empty list it raises at the unconditional dereference of the last block.
Its only in-repo caller, `checkBlockRange`, invokes it only under the
`highVolumeBlocks.length > 0` guard, so the error never surfaces. -/
theorem C5_composer_empty_amended (hvbs : List HighVolumeBlock)
    (m : List (String × Nat)) :
    (part000SendSpamAlert hvbs m).isSome ↔ hvbs ≠ [] := by
  cases hvbs with
  | nil => simp [part000SendSpamAlert]
  | cons b rest =>
    constructor
    · intro _
      simp
    · intro _
      exact part000SendSpamAlert_isSome_of_ne _ m (by simp)

/-! ## Claim C6 -/

/-- **C6** — Aggregator purity and idempotence: for every transaction
sequence, running part_000's aggregator twice yields identical statistics
(it is the same deterministic function of its input — in particular the
traversal result coincides with a canonical left fold of the pure step
function), and the `forEach` traversal returns the input sequence intact
(no mutation of the sequence or its elements). -/
theorem C6_aggregator_pure_idempotent (txs : List Tx) :
    analyzeSpamPatterns txs = analyzeSpamPatterns txs ∧
    (analyzeSpamPatternsGo emptySpamPatterns txs).1 =
      txs.foldl analyzeStep emptySpamPatterns ∧
    (analyzeSpamPatternsGo emptySpamPatterns txs).2 = txs :=
  ⟨rfl, analyzeSpamPatternsGo_fst _ _, analyzeSpamPatternsGo_snd _ _⟩

/-! ## Claim C7 -/

def wTxUpper : Tx :=
  { txFrom := some "0xABC", txTo := some "0xD", value := some 5,
    gasPrice := none, hash := none, nonce := none }

def wTxLower : Tx :=
  { txFrom := some "0xabc", txTo := some "0xd", value := some 5,
    gasPrice := none, hash := none, nonce := none }

/-- **C7 counterexample** — the claim says case-variant `from` addresses land
in the same sender bucket in all aggregated maps. index.js's aggregator keys
`senderCounts` by the raw `tx.from`: transactions from `"0xABC"` and
`"0xabc"` produce two distinct buckets of one transaction each. -/
theorem C7_counterexample :
    (indexAnalyzeSpamPatterns [wTxUpper, wTxLower]).senderCounts =
      [("0xABC", 1), ("0xabc", 1)] := by
  decide

/-- **C7 (amended)** — Address case normalization, per variant: part_000
lowercases both the `from` and the `to` key, so two transactions whose
`from` fields agree up to letter case are counted in one sender bucket
(which then holds both); index.js performs no normalization, so two distinct
case-variants of the same address occupy two distinct buckets of
`senderCounts`, one count each. -/
theorem C7_case_normalization_amended :
    (∀ (t1 t2 : Tx) (a1 a2 : String), t1.txFrom = some a1 → t2.txFrom = some a2 →
        toLowerString a1 = toLowerString a2 →
        lowerKey t1.txFrom = lowerKey t2.txFrom ∧
        mapGetD (analyzeSpamPatterns [t1, t2]).addressTxCount (lowerKey t1.txFrom) 0 = 2) ∧
    (∀ (t1 t2 : Tx) (b1 b2 : String), t1.txTo = some b1 → t2.txTo = some b2 →
        toLowerString b1 = toLowerString b2 →
        lowerKey t1.txTo = lowerKey t2.txTo) ∧
    (∀ (t1 t2 : Tx) (a1 a2 : String), t1.txFrom = some a1 → t2.txFrom = some a2 →
        a1 ≠ a2 →
        mapGetD (indexAnalyzeSpamPatterns [t1, t2]).senderCounts a1 0 = 1 ∧
        mapGetD (indexAnalyzeSpamPatterns [t1, t2]).senderCounts a2 0 = 1) := by
  refine ⟨?_, ?_, ?_⟩
  · intro t1 t2 a1 a2 h1 h2 hlow
    have hkey : lowerKey t1.txFrom = lowerKey t2.txFrom := by
      rw [h1, h2]
      simp [lowerKey, hlow]
    refine ⟨hkey, ?_⟩
    have e : analyzeSpamPatterns [t1, t2] =
        analyzeStep (analyzeStep emptySpamPatterns t1) t2 := by
      unfold analyzeSpamPatterns
      rw [analyzeSpamPatternsGo_fst]
      rfl
    rw [e, analyzeStep_addressTxCount, analyzeStep_addressTxCount, ← hkey]
    simp [emptySpamPatterns, mapSet, mapGetD]
  · intro t1 t2 b1 b2 h1 h2 hlow
    rw [h1, h2]
    simp [lowerKey, hlow]
  · intro t1 t2 a1 a2 h1 h2 hne
    have k1 : indexSenderKey t1 = a1 := by simp [indexSenderKey, h1]
    have k2 : indexSenderKey t2 = a2 := by simp [indexSenderKey, h2]
    have e : indexAnalyzeSpamPatterns [t1, t2] =
        indexAnalyzeStep (indexAnalyzeStep emptyIndexPatterns t1) t2 := rfl
    rw [e, indexAnalyzeStep_senderCounts, indexAnalyzeStep_senderCounts, k1, k2]
    constructor <;> simp [emptyIndexPatterns, mapSet, mapGetD, hne, Ne.symm hne]

theorem C7_witness :
    ((lowerKey wTxUpper.txFrom = lowerKey wTxLower.txFrom ∧
      mapGetD (analyzeSpamPatterns [wTxUpper, wTxLower]).addressTxCount
        (lowerKey wTxUpper.txFrom) 0 = 2) ∧
    (lowerKey wTxUpper.txTo = lowerKey wTxLower.txTo) ∧
    (mapGetD (indexAnalyzeSpamPatterns [wTxUpper, wTxLower]).senderCounts "0xABC" 0 = 1 ∧
      mapGetD (indexAnalyzeSpamPatterns [wTxUpper, wTxLower]).senderCounts "0xabc" 0 = 1)) :=
  ⟨C7_case_normalization_amended.1 wTxUpper wTxLower "0xABC" "0xabc" rfl rfl (by decide),
   C7_case_normalization_amended.2.1 wTxUpper wTxLower "0xD" "0xd" rfl rfl (by decide),
   C7_case_normalization_amended.2.2 wTxUpper wTxLower "0xABC" "0xabc" rfl rfl (by decide)⟩

/-! ## Claim C8 -/

/-- **C8 counterexample** — the claim says a transaction with absent `to`
contributes no entry to the receive-count map. part_000 normalizes an absent
`to` to the `"unknown"` sentinel and increments `recipientCount["unknown"]`:
one contract-creation transaction yields a one-entry map summing to 1,
not 0. -/
theorem C8_counterexample :
    (analyzeSpamPatterns
        [{ txFrom := some "0xaa", txTo := none, value := some 0,
           gasPrice := none, hash := none, nonce := none }]).recipientCount =
      [("unknown", 1)] := by
  decide

/-- **C8 (amended)** — Receive counts, per variant: index.js increments
`receiverCounts` only under `if (tx.to)` (a truthy — present and non-empty —
`to`), so the values of `receiverCounts` sum to the number of transactions
with truthy `to`; part_000 instead buckets every transaction's `to` (absent
ones under `"unknown"`), so its `recipientCount` values always sum to the
total number of input transactions. -/
theorem C8_receive_count_amended :
    (∀ txs : List Tx,
        sumValues (indexAnalyzeSpamPatterns txs).receiverCounts =
          txs.countP (fun tx => jsTruthy tx.txTo)) ∧
    (∀ txs : List Tx,
        sumValues (analyzeSpamPatterns txs).recipientCount = txs.length) := by
  constructor
  · intro txs
    have h := foldl_indexAnalyzeStep_receiverCounts_sum txs emptyIndexPatterns
    simpa [indexAnalyzeSpamPatterns, emptyIndexPatterns, sumValues] using h
  · exact analyze_recipientCount_sum

/-! ## Claim C9 -/

/-- **C9** — Pending-pool soft failure: in both variants, when the status
capability is absent or the status query raises, the pending check returns
absent without raising, sends no alert, and leaves the scanner state
unchanged; and in every case an alert is composed exactly when the reported
pending count exceeds the threshold of 50 (so only then). -/
theorem C9_pending_pool_soft_failure :
    (∀ (cc : Option (Option PoolContent)) (s : ScannerState),
        part000CheckPendingTxs none cc s = (s, none)) ∧
    (∀ (cc : Option (Option PoolContent)) (s : ScannerState),
        part000CheckPendingTxs (some none) cc s = (s, none)) ∧
    (∀ (sc : Option (Option PoolStatus)) (cc : Option (Option PoolContent))
        (s : ScannerState), (part000CheckPendingTxs sc cc s).1 = s) ∧
    (∀ (st : PoolStatus) (cc : Option (Option PoolContent)) (s : ScannerState),
        ((part000CheckPendingTxs (some (some st)) cc s).2).isSome =
          decide (50 < st.pending.getD 0)) ∧
    (∀ cc : Option (Option (List (String × Nat))),
        indexCheckPendingTxs none cc = none) ∧
    (∀ (st : IndexPoolStatus) (cc : Option (Option (List (String × Nat)))),
        (indexCheckPendingTxs (some st) cc).isSome =
          decide (50 < st.pending.getD 0)) := by
  refine ⟨fun cc s => rfl, fun cc s => rfl, ?_, ?_, fun cc => rfl, ?_⟩
  · intro sc cc s
    rcases sc with _ | (_ | st)
    · rfl
    · rfl
    · simp only [part000CheckPendingTxs]
      by_cases h : 50 < st.pending.getD 0
      · rw [if_pos h]
        rcases cc with _ | (_ | c) <;> rfl
      · rw [if_neg h]
  · intro st cc s
    simp only [part000CheckPendingTxs]
    by_cases h : 50 < st.pending.getD 0
    · rw [if_pos h]
      rcases cc with _ | (_ | c) <;> simp [h]
    · rw [if_neg h]
      simp [h]
  · intro st cc
    simp only [indexCheckPendingTxs]
    by_cases h : 50 < st.pending.getD 0
    · rw [if_pos h]
      rcases cc with _ | (_ | c) <;> simp [h]
    · rw [if_neg h]
      simp [h]

/-! ## Claim C10 -/

/-- **C10** — Send-count conservation: the values of the aggregator's
per-address send-count map (including the `"unknown"` sentinel bucket) sum
to the length of the input sequence; consequently, for every completed range
scan, the merged per-address counts sum to the total transaction count of
the collected high-volume blocks, and the total reported in a composed alert
equals that sum. -/
theorem C10_send_count_conservation :
    (∀ txs : List Tx,
        sumValues (analyzeSpamPatterns txs).addressTxCount = txs.length) ∧
    (∀ (fetch : Nat → Option BlockRecord) (s e th : Nat) (r : RangeScanResult),
        part000CheckBlockRange fetch s e th = some r →
        sumValues r.allAddressTxCount =
          r.highVolumeBlocks.foldl (fun sum b => sum + b.txCount) 0 ∧
        ∀ a, r.alert = some a →
          a.totalTransactions = sumValues r.allAddressTxCount) := by
  constructor
  · exact analyze_addressTxCount_sum
  · intro fetch s e th r hr
    obtain ⟨r', hr', hhv, hall, _, halert⟩ := part000CheckBlockRange_spec fetch s e th
    rw [hr'] at hr
    obtain rfl := Option.some.inj hr
    have hsum : sumValues r'.allAddressTxCount =
        r'.highVolumeBlocks.foldl (fun sum b => sum + b.txCount) 0 := by
      rw [hall, hhv]
      exact rangeFold_sum fetch th s e
    refine ⟨hsum, ?_⟩
    intro a ha
    rw [part000SendSpamAlert_totalTransactions _ _ _ (halert a ha), hsum]

def wRange10 : RangeScanResult :=
  (part000CheckBlockRange wFetch3 5 5 3).getD
    { highVolumeBlocks := [], allAddressTxCount := [], checkedBlocks := 0,
      fetched := [], alert := none }

theorem C10_witness :
    (sumValues (analyzeSpamPatterns [wTxXY]).addressTxCount = [wTxXY].length) ∧
    (sumValues wRange10.allAddressTxCount =
        wRange10.highVolumeBlocks.foldl (fun sum b => sum + b.txCount) 0 ∧
      ∀ a, wRange10.alert = some a →
        a.totalTransactions = sumValues wRange10.allAddressTxCount) :=
  ⟨C10_send_count_conservation.1 [wTxXY],
   C10_send_count_conservation.2 wFetch3 5 5 3 wRange10 (by decide)⟩
